import Mathlib

/-!
Shallow embedding of the cost-accounting and rate-limiting utility layer of
the `meta.playground` repository (`src/lib/models.ts`, the rate-limit module,
and the catalog lookup in `src/app/page.tsx`), together with theorems settling
the claims about it.  TypeScript numbers are modelled as exact rationals (ℚ);
decimal literals are written as the equal rationals `mkRat a b` (e.g. `2.5`
as `mkRat 25 10`) so that statements stay kernel-computable.  Strings are
Lean `String`s built from explicit character lists.
-/

namespace MetaPlayground

/-- The provider tag: union type `"OpenAI" | "Anthropic" | "Google"`. -/
inductive Provider
  | OpenAI
  | Anthropic
  | Google
deriving DecidableEq, Repr

/-- `ModelConfig` from `src/lib/models.ts`. -/
structure ModelConfig where
  id : String
  name : String
  provider : Provider
  inputCostPer1MTokens : ℚ
  outputCostPer1MTokens : ℚ
deriving DecidableEq, Repr

/-- The static `MODELS` catalog from `src/lib/models.ts`, in declaration
order (prices per million tokens: 2.5/10.0, 0.15/0.6, 0.3/1.2, 3.0/15.0,
0.1/0.4, 1.25/5.0). -/
def MODELS : List ModelConfig :=
  [ { id := "openai/gpt-4o", name := "GPT-4o", provider := Provider.OpenAI,
      inputCostPer1MTokens := mkRat 25 10, outputCostPer1MTokens := 10 },
    { id := "openai/gpt-4o-mini", name := "GPT-4o Mini", provider := Provider.OpenAI,
      inputCostPer1MTokens := mkRat 15 100, outputCostPer1MTokens := mkRat 6 10 },
    { id := "openai/gpt-5-mini", name := "GPT-5 Mini", provider := Provider.OpenAI,
      inputCostPer1MTokens := mkRat 3 10, outputCostPer1MTokens := mkRat 12 10 },
    { id := "anthropic/claude-sonnet-4-5-20250929", name := "Claude Sonnet 4.5",
      provider := Provider.Anthropic,
      inputCostPer1MTokens := 3, outputCostPer1MTokens := 15 },
    { id := "google/gemini-2.0-flash", name := "Gemini 2.0 Flash", provider := Provider.Google,
      inputCostPer1MTokens := mkRat 1 10, outputCostPer1MTokens := mkRat 4 10 },
    { id := "google/gemini-2.5-pro", name := "Gemini 2.5 Pro", provider := Provider.Google,
      inputCostPer1MTokens := mkRat 125 100, outputCostPer1MTokens := 5 } ]

/-- `calculateCost` from `src/lib/models.ts`:
`(promptTokens / 1_000_000) * model.inputCostPer1MTokens +
 (completionTokens / 1_000_000) * model.outputCostPer1MTokens`. -/
def calculateCost (model : ModelConfig) (promptTokens completionTokens : ℚ) : ℚ :=
  promptTokens / 1000000 * model.inputCostPer1MTokens +
    completionTokens / 1000000 * model.outputCostPer1MTokens

/-- The catalog lookup used by the orchestrator (`src/app/page.tsx`, line 165):
`MODELS.find((m) => m.id === modelId)`. -/
def lookupModel (modelId : String) : Option ModelConfig :=
  MODELS.find? fun m => m.id == modelId

/-! ### `Number.prototype.toFixed`

`formatCost` delegates digit rendering to JavaScript's `toFixed(f)`, whose
ECMAScript definition splits off the sign, then: when the remaining
magnitude is at least `10²¹` it returns the `Number::toString` rendering
(exponential form in this range, e.g. `(1e21).toFixed(2) === "1e+21"`);
otherwise it picks the integer `n` minimising `|n / 10^f - x|` (ties
resolved to the larger `n`, i.e. `n = ⌊x·10^f + 1/2⌋` for `x ≥ 0`) and
prints `n` with a decimal point inserted `f` digits from the right, the
fraction zero-padded to exactly `f` digits. -/

/-- Decimal digit rendering of a natural number, most significant digit
first, by structural recursion on a fuel argument (so that it reduces in the
kernel); `fuel = n + 1` always suffices since `n / 10 < n` for `10 ≤ n`. -/
def natDigitListAux : Nat → Nat → List Char
  | 0, _ => []
  | fuel + 1, n =>
    if n < 10 then [Nat.digitChar n]
    else natDigitListAux fuel (n / 10) ++ [Nat.digitChar (n % 10)]

/-- Decimal digit list (most significant first) of a natural number, as
JavaScript renders integers. -/
def natDigitList (n : Nat) : List Char :=
  natDigitListAux (n + 1) n

/-- Left-pad a digit list with `'0'` up to width `f`. -/
def padLeftZeros (f : Nat) (l : List Char) : List Char :=
  List.replicate (f - l.length) '0' ++ l

/-- The integer `⌊q · 10^f + 1/2⌋` (round half up) computed on the
numerator/denominator representation, for `0 ≤ q`:
`(2·q.num·10^f + q.den) / (2·q.den)` in natural-number division. -/
def jsRoundScaled (q : ℚ) (f : Nat) : Nat :=
  (2 * q.num.toNat * 10 ^ f + q.den) / (2 * q.den)

/-- Remove the trailing decimal zeros of a number, by structural recursion
on a fuel argument (`fuel = s` suffices: each strip divides by 10). -/
def stripTrailingZerosAux : Nat → Nat → Nat
  | 0, s => s
  | fuel + 1, s =>
    if s % 10 = 0 ∧ 0 < s then stripTrailingZerosAux fuel (s / 10) else s

/-- Remove the trailing decimal zeros of a number. -/
def stripTrailingZeros (s : Nat) : Nat :=
  stripTrailingZerosAux s s

/-- `10²¹`: below it `toFixed` renders positionally, from it upwards it
falls back to the `Number::toString` exponential rendering. -/
def toFixedExpThreshold : ℚ := 1000000000000000000000

/-- `Number::toString` as `toFixed` invokes it on magnitudes `≥ 10²¹`: the
decimal significand with trailing zeros removed, rendered as `d.dd…e+<exp>`
(no dot when a single significand digit remains), the exponent being one
less than the digit count of the value.  Every double `≥ 10²¹` is an
integer, so the value is read off the numerator (non-integral rationals,
which no double in this range can be, are floored). -/
def jsToStringBig (q : ℚ) : List Char :=
  let m : Nat := q.num.toNat / q.den
  let e : Nat := (natDigitList m).length - 1
  match natDigitList (stripTrailingZeros m) with
  | [] => []
  | [d] => d :: 'e' :: '+' :: natDigitList e
  | d :: rest => d :: '.' :: (rest ++ 'e' :: '+' :: natDigitList e)

/-- `toFixed` on a non-negative rational: the `toString` exponential
rendering from `10²¹` upwards, otherwise round `q · 10^f` half-up to the
integer `n` and print it with `f` fractional digits. -/
def toFixedNonnegChars (q : ℚ) (f : Nat) : List Char :=
  if toFixedExpThreshold ≤ q then jsToStringBig q
  else
    let n : Nat := jsRoundScaled q f
    if f = 0 then natDigitList n
    else natDigitList (n / 10 ^ f) ++ '.' :: padLeftZeros f (natDigitList (n % 10 ^ f))

/-- `x.toFixed(f)` as a character list: a leading `'-'` for negative `x`,
then the non-negative rendering of `|x|`. -/
def toFixedChars (q : ℚ) (f : Nat) : List Char :=
  if q < 0 then '-' :: toFixedNonnegChars (-q) f else toFixedNonnegChars q f

/-- `formatCost` from `src/lib/models.ts`: tiered precision (thresholds
0.001, 0.01, 1), always `"$"`-prefixed. -/
def formatCost (cost : ℚ) : String :=
  if cost < mkRat 1 1000 then ⟨'$' :: toFixedChars cost 6⟩
  else if cost < mkRat 1 100 then ⟨'$' :: toFixedChars cost 5⟩
  else if cost < 1 then ⟨'$' :: toFixedChars cost 4⟩
  else ⟨'$' :: toFixedChars cost 2⟩

/-- Number of characters after the first `'.'` of a string (0 when there is
no dot): the fractional-digit count of a rendered cost. -/
def fracDigitCount (s : String) : Nat :=
  ((s.data.dropWhile fun c => c != '.').drop 1).length

/-! ### Rate limiter module

The module keeps a process-wide nullable handle `_ratelimit`, lazily
constructed from the environment variables `UPSTASH_REDIS_REST_URL` and
`UPSTASH_REDIS_REST_TOKEN`; construction is skipped when either variable is
missing or empty (JavaScript falsiness of `!url || !token`) or the URL does
not start with `"https"`, in which case `checkRateLimit` answers the
permissive `{success: true, limit: 0, remaining: 0, reset: 0}`.  The external
Upstash counter store called through the handle is not part of this
repository and is modelled from the spec below. -/

/-- The environment variables the limiter reads. -/
structure Env where
  UPSTASH_REDIS_REST_URL : Option String
  UPSTASH_REDIS_REST_TOKEN : Option String
deriving DecidableEq, Repr

/-- JavaScript truthiness of an optional string: `undefined` and `""` are
falsy. -/
def envTruthy : Option String → Bool
  | none => false
  | some s => !s.isEmpty

/-- `url.startsWith("https")`, stated on the character list (the same
predicate as `String.startsWith`, kept kernel-computable). -/
def startsWithHttps (s : String) : Bool :=
  "https".data.isPrefixOf s.data

/-- The constructed `Ratelimit` client handle: the Redis connection data and
the fixed-window policy `Ratelimit.fixedWindow(5, "1 d")`. -/
structure RatelimitHandle where
  url : String
  token : String
  quota : Nat
  window : String
deriving DecidableEq, Repr

/-- The module-level mutable cell `let _ratelimit: Ratelimit | null = null`. -/
structure ProcState where
  _ratelimit : Option RatelimitHandle
deriving DecidableEq, Repr

/-- Process start: the cell holds `null`. -/
def initState : ProcState := ⟨none⟩

/-- `getRatelimit()`: return the cached handle when present; otherwise, when
the configuration is complete and secure-prefixed, construct the handle with
the fixed-window 5-per-day policy and cache it; otherwise `null`. -/
def getRatelimit (env : Env) (s : ProcState) : Option RatelimitHandle × ProcState :=
  match s._ratelimit with
  | some rl => (some rl, s)
  | none =>
    if !envTruthy env.UPSTASH_REDIS_REST_URL || !envTruthy env.UPSTASH_REDIS_REST_TOKEN
        || !startsWithHttps (env.UPSTASH_REDIS_REST_URL.getD "") then
      (none, s)
    else
      let rl : RatelimitHandle :=
        { url := env.UPSTASH_REDIS_REST_URL.getD "",
          token := env.UPSTASH_REDIS_REST_TOKEN.getD "",
          quota := 5, window := "1 d" }
      (some rl, { _ratelimit := some rl })

/-- The result shape of `checkRateLimit`: `{success, limit, remaining,
reset}`. -/
structure RateLimitResponse where
  success : Bool
  limit : Nat
  remaining : Nat
  reset : Nat
deriving DecidableEq, Repr

/-- Modelled from the spec: the per-identifier window state owned by the
external Upstash counter store (`@upstash/ratelimit` over `@upstash/redis`,
code not part of this repository): within one fixed window it keeps each
identifier's admission count, plus the window's reset time. -/
structure Store where
  counts : String → Nat
  reset : Nat

/-- Modelled from the spec: one atomic increment-and-check of the external
fixed-window counter for `id` under the policy quota — admit while the
incremented count stays within the quota, and report the policy limit, the
remaining admissions, and the window reset time. -/
def storeLimit (quota : Nat) (st : Store) (id : String) : RateLimitResponse × Store :=
  let c := st.counts id + 1
  ({ success := decide (c ≤ quota), limit := quota, remaining := quota - c, reset := st.reset },
    { st with counts := fun x => if x = id then c else st.counts x })

/-- A store at the start of a window: all counters zero. -/
def emptyStore : Store := ⟨fun _ => 0, 0⟩

/-- `checkRateLimit(identifier)`: the permissive
`{success: true, limit: 0, remaining: 0, reset: 0}` when no handle could be
constructed, else the external store's decision under the handle's policy. -/
def checkRateLimit (env : Env) (s : ProcState) (st : Store) (identifier : String) :
    RateLimitResponse × ProcState × Store :=
  match getRatelimit env s with
  | (none, s2) => ({ success := true, limit := 0, remaining := 0, reset := 0 }, s2, st)
  | (some rl, s2) =>
    let r := storeLimit rl.quota st identifier
    (r.1, s2, r.2)

/-- A sequence of consecutive `checkRateLimit` calls, one per identifier in
the list, threading the process state and the external store. -/
def runCalls (env : Env) : List String → ProcState → Store →
    List RateLimitResponse × ProcState × Store
  | [], s, st => ([], s, st)
  | id :: ids, s, st =>
    let step := checkRateLimit env s st id
    let rest := runCalls env ids step.2.1 step.2.2
    (step.1 :: rest.1, rest.2.1, rest.2.2)

/-- The always-allow decision of an unconfigured limiter. -/
def permissiveResponse : RateLimitResponse := ⟨true, 0, 0, 0⟩

/-- A natural number is below the rounded-up multiple of its divisor. -/
theorem nat_lt_div_succ_mul (c b : Nat) (hb : 0 < b) : c < (c / b + 1) * b := by
  have h1 : c / b * b + c % b = c := Nat.div_add_mod' c b
  have h2 := Nat.mod_lt c hb
  have h3 : (c / b + 1) * b = c / b * b + b := by ring
  omega

/-- `jsRoundScaled` really is `⌊q · 10^f + 1/2⌋` on non-negative rationals:
the nearest integer to `q · 10^f`, ties upward. -/
theorem jsRoundScaled_eq_floor (q : ℚ) (f : Nat) (hq : 0 ≤ q) :
    (jsRoundScaled q f : ℤ) = ⌊q * (10 : ℚ) ^ f + 1 / 2⌋ := by
  have hden : 0 < q.den := q.den_pos
  have hnum : (0 : ℤ) ≤ q.num := Rat.num_nonneg.mpr hq
  have hdenQ : ((q.den : ℚ)) ≠ 0 := by positivity
  have hq4 : q = (q.num : ℚ) / (q.den : ℚ) := (Rat.num_div_den q).symm
  have hx : q * (10 : ℚ) ^ f + 1 / 2 =
      ((2 * q.num.toNat * 10 ^ f + q.den : ℕ) : ℚ) / ((2 * q.den : ℕ) : ℚ) := by
    have h2 : ((q.num.toNat : ℕ) : ℚ) = (q.num : ℚ) := by
      exact_mod_cast Int.toNat_of_nonneg hnum
    conv_lhs => rw [hq4]
    push_cast
    rw [h2]
    field_simp
    ring
  rw [hx]
  symm
  rw [Int.floor_eq_iff]
  have hb0 : 0 < 2 * q.den := by omega
  have hbQ : (0 : ℚ) < ((2 * q.den : ℕ) : ℚ) := by exact_mod_cast hb0
  constructor
  · rw [jsRoundScaled, le_div_iff₀ hbQ]
    exact_mod_cast Nat.div_mul_le_self (2 * q.num.toNat * 10 ^ f + q.den) (2 * q.den)
  · rw [jsRoundScaled, div_lt_iff₀ hbQ]
    exact_mod_cast nat_lt_div_succ_mul (2 * q.num.toNat * 10 ^ f + q.den) (2 * q.den) hb0

/-- Every character produced by `natDigitListAux` is `Nat.digitChar` of a
value below 10. -/
theorem natDigitListAux_mem (fuel : Nat) :
    ∀ n, ∀ c ∈ natDigitListAux fuel n, ∃ m, m < 10 ∧ c = Nat.digitChar m := by
  induction fuel with
  | zero => intro n c hc; simp [natDigitListAux] at hc
  | succ fuel ih =>
    intro n c hc
    simp only [natDigitListAux] at hc
    by_cases h : n < 10
    · rw [if_pos h, List.mem_singleton] at hc
      exact ⟨n, h, hc⟩
    · rw [if_neg h] at hc
      rcases List.mem_append.mp hc with h1 | h1
      · exact ih (n / 10) c h1
      · rw [List.mem_singleton] at h1
        exact ⟨n % 10, Nat.mod_lt n (by omega), h1⟩

/-- Decimal digit characters are never the dot. -/
theorem digitChar_ne_dot : ∀ m, m < 10 → Nat.digitChar m ≠ '.' := by decide

/-- A JavaScript integer rendering contains no `'.'`. -/
theorem natDigitList_ne_dot (n : Nat) : ∀ c ∈ natDigitList n, c ≠ '.' := by
  intro c hc
  obtain ⟨m, hm, rfl⟩ := natDigitListAux_mem (n + 1) n c hc
  exact digitChar_ne_dot m hm

/-- A number below `10^k` (with `1 ≤ k`) renders with at most `k` digits. -/
theorem natDigitListAux_length_le (fuel : Nat) :
    ∀ n k, 1 ≤ k → n < 10 ^ k → (natDigitListAux fuel n).length ≤ k := by
  induction fuel with
  | zero => intro n k hk _; simp [natDigitListAux]
  | succ fuel ih =>
    intro n k hk hn
    simp only [natDigitListAux]
    by_cases h : n < 10
    · rw [if_pos h]; simpa using hk
    · rw [if_neg h]
      obtain ⟨j, rfl⟩ : ∃ j, k = j + 1 := ⟨k - 1, by omega⟩
      have hj : 1 ≤ j := by
        by_contra hcon
        have hj0 : j = 0 := by omega
        subst hj0
        rw [pow_one] at hn
        omega
      have hn' : n / 10 < 10 ^ j := by
        apply Nat.div_lt_of_lt_mul
        rw [pow_succ] at hn
        omega
      have := ih (n / 10) j hj hn'
      rw [List.length_append, List.length_singleton]
      omega

/-- `natDigitList` of `n < 10^k` has at most `k` digits (for `1 ≤ k`). -/
theorem natDigitList_length_le (n k : Nat) (hk : 1 ≤ k) (hn : n < 10 ^ k) :
    (natDigitList n).length ≤ k :=
  natDigitListAux_length_le (n + 1) n k hk hn

/-- Padding a short digit list to width `f` yields length exactly `f`. -/
theorem padLeftZeros_length (f : Nat) (l : List Char) (h : l.length ≤ f) :
    (padLeftZeros f l).length = f := by
  simp [padLeftZeros]
  omega

/-- Padding with zeros introduces no `'.'`. -/
theorem padLeftZeros_ne_dot (f : Nat) (l : List Char) (hl : ∀ c ∈ l, c ≠ '.') :
    ∀ c ∈ padLeftZeros f l, c ≠ '.' := by
  intro c hc
  rcases List.mem_append.mp hc with h | h
  · rw [List.eq_of_mem_replicate h]
    decide
  · exact hl c h

/-- `dropWhile` skips over a prefix on which the predicate holds. -/
theorem dropWhile_append_of_forall {α : Type} (p : α → Bool) (l₁ l₂ : List α)
    (h : ∀ a ∈ l₁, p a = true) : (l₁ ++ l₂).dropWhile p = l₂.dropWhile p := by
  induction l₁ with
  | nil => rfl
  | cons a l ih =>
    rw [List.cons_append, List.dropWhile_cons_of_pos (h a (List.mem_cons_self a l))]
    exact ih fun x hx => h x (List.mem_cons_of_mem a hx)

/-- `toFixed` on a non-negative value below `10²¹` with `1 ≤ f` splits into
integer part, dot, and `f`-padded fractional part. -/
theorem toFixedNonnegChars_eq (q : ℚ) (f : Nat) (hf : 1 ≤ f)
    (hq : q < toFixedExpThreshold) :
    toFixedNonnegChars q f =
      natDigitList (jsRoundScaled q f / 10 ^ f) ++
        '.' :: padLeftZeros f (natDigitList (jsRoundScaled q f % 10 ^ f)) := by
  simp only [toFixedNonnegChars]
  rw [if_neg (not_le.mpr hq), if_neg (by omega)]

/-- The fractional part of a rendered `toFixed` value (everything after the
first `'.'`) has exactly `f` characters. -/
theorem fracDigitCount_core (n f : Nat) (hf : 1 ≤ f) :
    (((natDigitList (n / 10 ^ f) ++ '.' :: padLeftZeros f (natDigitList (n % 10 ^ f))).dropWhile
        fun c => c != '.').drop 1).length = f := by
  rw [dropWhile_append_of_forall _ _ _ fun c hc => by
    simpa [bne_iff_ne] using natDigitList_ne_dot _ c hc]
  rw [List.dropWhile_cons_of_neg (by decide)]
  rw [List.drop_succ_cons, List.drop_zero]
  apply padLeftZeros_length
  apply natDigitList_length_le _ f hf
  exact Nat.mod_lt _ (Nat.pow_pos (by omega))

/-- Character-level content of the `"$"`-prefixed `toFixed` rendering for
magnitudes inside the positional range (`|q| < 10²¹`): the fractional-digit
count is exactly `f`, whatever the sign. -/
theorem fracDigitCount_dollar_toFixed (q : ℚ) (f : Nat) (hf : 1 ≤ f)
    (hlo : -toFixedExpThreshold < q) (hhi : q < toFixedExpThreshold) :
    fracDigitCount ⟨'$' :: toFixedChars q f⟩ = f := by
  show ((('$' :: toFixedChars q f).dropWhile fun c => c != '.').drop 1).length = f
  rw [List.dropWhile_cons_of_pos (by decide)]
  rw [toFixedChars]
  split
  · rw [List.dropWhile_cons_of_pos (by decide),
      toFixedNonnegChars_eq _ f hf (by linarith)]
    exact fracDigitCount_core _ f hf
  · rw [toFixedNonnegChars_eq _ f hf hhi]
    exact fracDigitCount_core _ f hf

/-! ### Claims -/

/-- C1: for every pricing entry `e` and non-negative token counts `p`, `c`,
`calculateCost e p c = (p / 1_000_000) · e.inputCostPer1MTokens +
(c / 1_000_000) · e.outputCostPer1MTokens`; and for any entry priced at
input 2.5 / output 10.0 per million tokens, 1,000,000 prompt tokens and
500,000 completion tokens cost exactly 7.5. -/
theorem calculateCost_formula :
    (∀ (e : ModelConfig) (p c : ℚ), 0 ≤ p → 0 ≤ c →
        calculateCost e p c =
          p / 1000000 * e.inputCostPer1MTokens + c / 1000000 * e.outputCostPer1MTokens) ∧
      ∀ e : ModelConfig, e.inputCostPer1MTokens = mkRat 25 10 →
        e.outputCostPer1MTokens = 10 → calculateCost e 1000000 500000 = mkRat 75 10 := by
  constructor
  · intro e p c _ _
    rfl
  · intro e h1 h2
    rw [calculateCost, h1, h2, Rat.mkRat_eq_div, Rat.mkRat_eq_div]
    norm_num

/-- Witness for C1 at the GPT-4o pricing entry. -/
theorem calculateCost_formula_witness :
    (calculateCost ⟨"openai/gpt-4o", "GPT-4o", Provider.OpenAI, mkRat 25 10, 10⟩
        1000000 500000 =
      (1000000 : ℚ) / 1000000 * mkRat 25 10 + (500000 : ℚ) / 1000000 * 10) ∧
    calculateCost ⟨"openai/gpt-4o", "GPT-4o", Provider.OpenAI, mkRat 25 10, 10⟩
        1000000 500000 = mkRat 75 10 :=
  ⟨calculateCost_formula.1 _ 1000000 500000 (by decide) (by decide),
    calculateCost_formula.2 _ rfl rfl⟩

/-- C2 counterexample: at `cost = 10²¹` — a finite value in the `cost ≥ 1`
tier — `toFixed` falls back to the exponential `toString` rendering, so the
program returns `"$1e+21"` with no fractional digits instead of the claimed
two. -/
theorem formatCost_1e21_cex :
    formatCost toFixedExpThreshold = "$1e+21" ∧
      fracDigitCount (formatCost toFixedExpThreshold) ≠ 2 ∧
        (1 : ℚ) ≤ toFixedExpThreshold := by
  refine ⟨by decide, by decide, by decide⟩

/-- C2 amended: every formatted cost is dollar-prefixed; for every cost in
`toFixed`'s positional range (`|cost| < 10²¹`) the fractional-digit count
follows the magnitude tier (6 below 0.001, 5 below 0.01, 4 below 1, else 2;
a boundary value falls into the `≥` tier), and the boundary examples
`formatCost 0 = "$0.000000"`, five digits at 0.001, four at 0.01, and
`formatCost 1 = "$1.00"` hold; from `10²¹` upwards `toFixed` falls back to
the exponential `toString` rendering. -/
theorem formatCost_tiered_bounded :
    (∀ cost : ℚ, (formatCost cost).data.head? = some '$') ∧
      (∀ cost : ℚ, -toFixedExpThreshold < cost → cost < toFixedExpThreshold →
          fracDigitCount (formatCost cost) =
            if cost < mkRat 1 1000 then 6
            else if cost < mkRat 1 100 then 5
            else if cost < 1 then 4 else 2) ∧
      formatCost 0 = "$0.000000" ∧
        fracDigitCount (formatCost (mkRat 1 1000)) = 5 ∧
          fracDigitCount (formatCost (mkRat 1 100)) = 4 ∧
            formatCost 1 = "$1.00" := by
  refine ⟨fun cost => ?_, fun cost hlo hhi => ?_, by decide, by decide, by decide, by decide⟩
  · rw [formatCost]
    split_ifs <;> rfl
  · rw [formatCost]
    split_ifs
    · exact fracDigitCount_dollar_toFixed _ 6 (by omega) hlo hhi
    · exact fracDigitCount_dollar_toFixed _ 5 (by omega) hlo hhi
    · exact fracDigitCount_dollar_toFixed _ 4 (by omega) hlo hhi
    · exact fracDigitCount_dollar_toFixed _ 2 (by omega) hlo hhi

/-- Witness for the amended C2: the tier equation instantiated at
`cost = 15.5`, inside the positional range. -/
theorem formatCost_tiered_bounded_witness :
    fracDigitCount (formatCost (mkRat 155 10)) =
      if (mkRat 155 10 : ℚ) < mkRat 1 1000 then 6
      else if (mkRat 155 10 : ℚ) < mkRat 1 100 then 5
      else if (mkRat 155 10 : ℚ) < 1 then 4 else 2 :=
  formatCost_tiered_bounded.2.1 (mkRat 155 10) (by decide) (by decide)

/-- C3 counterexample: `formatCost 0.0009999` equals `"$0.001000"` because
`toFixed(6)` rounds the seventh digit up; the output therefore does not
start with `"$0.000999"` as the claim states. -/
theorem formatCost_0009999_cex :
    formatCost (mkRat 9999 10000000) = "$0.001000" ∧
      "$0.000999".data.isPrefixOf (formatCost (mkRat 9999 10000000)).data = false := by
  constructor <;> decide

/-- C3 amended: the spec's concrete `formatCost` vectors, with the 0.0009999
case rounded (not truncated): `formatCost 0.0000004 = "$0.000000"`,
`formatCost 0.0009999 = "$0.001000"` (6 fractional digits), 5 fractional
digits at 0.0099999, 4 at 0.999999, and `formatCost 15.5 = "$15.50"`. -/
theorem formatCost_vectors :
    formatCost (mkRat 4 10000000) = "$0.000000" ∧
      formatCost (mkRat 9999 10000000) = "$0.001000" ∧
        fracDigitCount (formatCost (mkRat 9999 10000000)) = 6 ∧
          fracDigitCount (formatCost (mkRat 99999 10000000)) = 5 ∧
            fracDigitCount (formatCost (mkRat 999999 1000000)) = 4 ∧
              formatCost (mkRat 155 10) = "$15.50" := by
  refine ⟨by decide, by decide, by decide, by decide, by decide, by decide⟩

/-- C4: with non-negative prices, the cost is monotonically non-decreasing
in each token count separately. -/
theorem calculateCost_monotone (e : ModelConfig)
    (hin : 0 ≤ e.inputCostPer1MTokens) (hout : 0 ≤ e.outputCostPer1MTokens)
    (p p' c c' : ℚ) (_hp0 : 0 ≤ p) (_hc0 : 0 ≤ c) (hp : p ≤ p') (hc : c ≤ c') :
    calculateCost e p c ≤ calculateCost e p' c ∧
      calculateCost e p c ≤ calculateCost e p c' := by
  unfold calculateCost
  constructor <;> gcongr

/-- Witness for C4 at the GPT-4o pricing entry with `p = 1 ≤ 2`,
`c = 3 ≤ 4`. -/
theorem calculateCost_monotone_witness :
    calculateCost ⟨"openai/gpt-4o", "GPT-4o", Provider.OpenAI, mkRat 25 10, 10⟩ 1 3 ≤
        calculateCost ⟨"openai/gpt-4o", "GPT-4o", Provider.OpenAI, mkRat 25 10, 10⟩ 2 3 ∧
      calculateCost ⟨"openai/gpt-4o", "GPT-4o", Provider.OpenAI, mkRat 25 10, 10⟩ 1 3 ≤
        calculateCost ⟨"openai/gpt-4o", "GPT-4o", Provider.OpenAI, mkRat 25 10, 10⟩ 1 4 :=
  calculateCost_monotone _ (by decide) (by decide) 1 2 3 4
    (by decide) (by decide) (by decide) (by decide)

/-- C5 counterexample: `calculateCost` accepts a negative prompt-token count
and silently returns a negative cost: −1,000,000 prompt tokens at input
price 2.5 yield −2.5 < 0, with no rejection or clamping anywhere. -/
theorem calculateCost_negative_cex :
    calculateCost ⟨"openai/gpt-4o", "GPT-4o", Provider.OpenAI, mkRat 25 10, 10⟩
        (-1000000) 0 = -(mkRat 25 10) ∧
      -(mkRat 25 10) < (0 : ℚ) := by
  constructor
  · rw [calculateCost, Rat.mkRat_eq_div]
    norm_num
  · decide

/-- C5 amended: `calculateCost` performs no input validation: a negative
token count flows through the linear formula unchanged, so with a positive
input price, a negative prompt count and zero completion count, the function
silently returns a negative cost. -/
theorem calculateCost_no_reject (e : ModelConfig) (p : ℚ) (hp : p < 0)
    (hin : 0 < e.inputCostPer1MTokens) :
    calculateCost e p 0 < 0 := by
  rw [calculateCost]
  have h1 : p / 1000000 < 0 := div_neg_of_neg_of_pos hp (by norm_num)
  have h2 : p / 1000000 * e.inputCostPer1MTokens < 0 := mul_neg_of_neg_of_pos h1 hin
  rw [zero_div, zero_mul, add_zero]
  exact h2

/-- Witness for the amended C5 at the GPT-4o entry with −1,000,000 prompt
tokens. -/
theorem calculateCost_no_reject_witness :
    calculateCost ⟨"openai/gpt-4o", "GPT-4o", Provider.OpenAI, mkRat 25 10, 10⟩
        (-1000000) 0 < 0 :=
  calculateCost_no_reject _ _ (by decide) (by decide)

/-- C6: `lookupModel "openai/gpt-4o"` returns the entry named `"GPT-4o"`;
catalog identifiers are pairwise distinct, so a lookup matches at most one
entry; and every identifier outside the catalog yields `none` — the distinct
not-found result — never some default entry. -/
theorem lookupModel_spec :
    (∃ m : ModelConfig, lookupModel "openai/gpt-4o" = some m ∧ m.name = "GPT-4o") ∧
      (MODELS.map ModelConfig.id).Nodup ∧
        ∀ id : String, id ∉ MODELS.map ModelConfig.id → lookupModel id = none := by
  refine ⟨⟨_, rfl, rfl⟩, by decide, ?_⟩
  intro id hid
  rw [lookupModel, List.find?_eq_none]
  intro m hm hbeq
  exact hid (List.mem_map.mpr ⟨m, hm, by simpa using hbeq⟩)

/-- Witness for C6 at an unregistered identifier. -/
theorem lookupModel_spec_witness : lookupModel "not-a-model" = none :=
  lookupModel_spec.2.2 "not-a-model" (by decide)

/-- C10 counterexample: at `cost = -10²¹` the magnitude reaches `toFixed`'s
exponential range, so the program returns `"$-1e+21"` — not a
6-fractional-digit rendering. -/
theorem formatCost_neg1e21_cex :
    formatCost (-toFixedExpThreshold) = "$-1e+21" ∧
      fracDigitCount (formatCost (-toFixedExpThreshold)) ≠ 6 ∧
        (-toFixedExpThreshold : ℚ) < 0 := by
  refine ⟨by decide, by decide, by decide⟩

/-- C10 amended: `formatCost` is total on negative inputs (no input is
rejected, no error raised); every `cost < 0` falls into the `< 0.001` tier,
and for negative costs of magnitude below `10²¹` the output is `'$'`, then
`'-'`, then the 6-fractional-digit rendering of `|cost|` — in particular
`formatCost (-0.1) = "$-0.100000"`; at magnitude `10²¹` and beyond `toFixed`
falls back to the exponential `toString` rendering. -/
theorem formatCost_negative_bounded :
    (∀ cost : ℚ, -toFixedExpThreshold < cost → cost < 0 →
        cost < mkRat 1 1000 ∧
          formatCost cost = ⟨'$' :: '-' :: toFixedNonnegChars (-cost) 6⟩ ∧
            fracDigitCount (formatCost cost) = 6) ∧
      formatCost (-(mkRat 1 10)) = "$-0.100000" := by
  refine ⟨fun cost hlo h => ?_, by decide⟩
  have h1 : cost < mkRat 1 1000 := lt_trans h (by decide)
  have hhi : cost < toFixedExpThreshold := lt_trans h (by decide)
  refine ⟨h1, ?_, ?_⟩
  · rw [formatCost, if_pos h1, toFixedChars, if_pos h]
  · rw [formatCost, if_pos h1]
    exact fracDigitCount_dollar_toFixed _ 6 (by omega) hlo hhi

/-- Witness for the amended C10 at `cost = -0.1`. -/
theorem formatCost_negative_bounded_witness :
    (-(mkRat 1 10) : ℚ) < mkRat 1 1000 ∧
      formatCost (-(mkRat 1 10)) =
          ⟨'$' :: '-' :: toFixedNonnegChars (-(-(mkRat 1 10))) 6⟩ ∧
        fracDigitCount (formatCost (-(mkRat 1 10))) = 6 :=
  formatCost_negative_bounded.1 _ (by decide) (by decide)

/-- C7: with a missing or empty URL or token, or a URL without the secure
`"https"` prefix, the limiter is disabled for the whole process lifetime:
from process start, any sequence of `checkRateLimit` calls — whatever the
identifiers and however many consecutive calls — returns only
`{success: true, limit: 0, remaining: 0, reset: 0}`, leaves the handle cell
at `null`, and never touches the external store. -/
theorem checkRateLimit_unconfigured (env : Env)
    (h : envTruthy env.UPSTASH_REDIS_REST_URL = false ∨
        envTruthy env.UPSTASH_REDIS_REST_TOKEN = false ∨
        startsWithHttps (env.UPSTASH_REDIS_REST_URL.getD "") = false) :
    ∀ (ids : List String) (st : Store),
      runCalls env ids initState st =
        (ids.map fun _ => permissiveResponse, initState, st) := by
  have hget : getRatelimit env initState = (none, initState) := by
    rcases h with h | h | h <;> simp [getRatelimit, initState, h]
  intro ids
  induction ids with
  | nil => intro st; rfl
  | cons id ids ih =>
    intro st
    simp [runCalls, checkRateLimit, hget, ih, permissiveResponse]

/-- Witness for C7: 100 consecutive calls under the empty environment. -/
theorem checkRateLimit_unconfigured_witness :
    runCalls ⟨none, none⟩ (List.replicate 100 "203.0.113.7") initState emptyStore =
      ((List.replicate 100 "203.0.113.7").map fun _ => permissiveResponse,
        initState, emptyStore) :=
  checkRateLimit_unconfigured ⟨none, none⟩ (Or.inl rfl) _ _

/-- C8: once a `getRatelimit` call yields a handle, the cell caches exactly
that handle, and any later call — even under a different environment —
returns the same handle and leaves the state untouched; a subsequent
`checkRateLimit` likewise leaves the cached cell unchanged, so two calls
never observe divergent handles. -/
theorem getRatelimit_cached (env env2 : Env) (s : ProcState) (h : RatelimitHandle)
    (hc : (getRatelimit env s).1 = some h) :
    (getRatelimit env s).2._ratelimit = some h ∧
      getRatelimit env2 (getRatelimit env s).2 = (some h, (getRatelimit env s).2) ∧
      ∀ (st : Store) (id : String),
        (checkRateLimit env2 (getRatelimit env s).2 st id).2.1 =
          (getRatelimit env s).2 := by
  have hcell : (getRatelimit env s).2._ratelimit = some h := by
    rcases hs : s._ratelimit with _ | rl
    · simp only [getRatelimit, hs] at hc ⊢
      split_ifs at hc ⊢ with hcond
      simp at hc ⊢
      exact hc
    · simp only [getRatelimit, hs] at hc ⊢
      exact hc
  have h2 : getRatelimit env2 (getRatelimit env s).2 = (some h, (getRatelimit env s).2) := by
    rw [getRatelimit, hcell]
  refine ⟨hcell, h2, ?_⟩
  intro st id
  simp [checkRateLimit, h2]

/-- Witness for C8: a valid configuration constructs the handle once; calls
under a different (empty) environment still see the cached handle. -/
theorem getRatelimit_cached_witness :
    (getRatelimit ⟨some "https://example.upstash.io", some "tok"⟩ initState).2._ratelimit =
        some ⟨"https://example.upstash.io", "tok", 5, "1 d"⟩ ∧
      getRatelimit ⟨none, none⟩
          (getRatelimit ⟨some "https://example.upstash.io", some "tok"⟩ initState).2 =
        (some ⟨"https://example.upstash.io", "tok", 5, "1 d"⟩,
          (getRatelimit ⟨some "https://example.upstash.io", some "tok"⟩ initState).2) ∧
      ∀ (st : Store) (id : String),
        (checkRateLimit ⟨none, none⟩
            (getRatelimit ⟨some "https://example.upstash.io", some "tok"⟩ initState).2
            st id).2.1 =
          (getRatelimit ⟨some "https://example.upstash.io", some "tok"⟩ initState).2 :=
  getRatelimit_cached _ ⟨none, none⟩ initState _ (by decide)

/-- C9: with the limiter configured (nonempty `"https"`-prefixed URL,
nonempty token) and the external store modelled as an atomic fixed-window
counter with quota 5 starting from an empty window, one identifier's first
five calls are admitted, its sixth call in the same window is rejected with
`remaining = 0`, and a different identifier in the same window is still
admitted. -/
theorem checkRateLimit_quota (u t id id2 : String)
    (hu : u.isEmpty = false) (ht : t.isEmpty = false)
    (hsec : startsWithHttps u = true) (hne : id2 ≠ id) :
    (runCalls ⟨some u, some t⟩ [id, id, id, id, id, id, id2] initState emptyStore).1 =
      [⟨true, 5, 4, 0⟩, ⟨true, 5, 3, 0⟩, ⟨true, 5, 2, 0⟩, ⟨true, 5, 1, 0⟩,
        ⟨true, 5, 0, 0⟩, ⟨false, 5, 0, 0⟩, ⟨true, 5, 4, 0⟩] := by
  simp [runCalls, checkRateLimit, getRatelimit, initState, emptyStore, storeLimit,
    envTruthy, hu, ht, hsec, hne]

/-- Witness for C9 with a concrete configuration and identifiers. -/
theorem checkRateLimit_quota_witness :
    (runCalls ⟨some "https://r.upstash.io", some "tok"⟩
        ["alice", "alice", "alice", "alice", "alice", "alice", "bob"]
        initState emptyStore).1 =
      [⟨true, 5, 4, 0⟩, ⟨true, 5, 3, 0⟩, ⟨true, 5, 2, 0⟩, ⟨true, 5, 1, 0⟩,
        ⟨true, 5, 0, 0⟩, ⟨false, 5, 0, 0⟩, ⟨true, 5, 4, 0⟩] :=
  checkRateLimit_quota "https://r.upstash.io" "tok" "alice" "bob"
    (by decide) (by decide) (by decide) (by decide)

end MetaPlayground
